import Mathlib

/-!
Verification of the ledger/audit core of the HackingDelhi governance portal
(`backend/blockchain_service.py`): canonical record hashing, the in-memory
mock ledger (records, audit log, transaction ids) and the blockchain
service facade built on top of it.

The embedding follows the Python source closely: Python dictionaries of
census-record values become association lists of `PyValue`s, `datetime.now`
becomes an explicit `Timestamp` argument, exceptions become `Except` results
paired with the post-call ledger state (mutations performed before a raise
would persist, so each operation returns the state it leaves behind).
-/

namespace BlockchainService

/-- A Python value as it can appear in a census-record dictionary.
Floats are outside the embedding's scope; records carry strings,
integers, booleans or `None`. -/
inductive PyValue where
  | none
  | int (i : Int)
  | bool (b : Bool)
  | str (s : String)
deriving DecidableEq

/-- Python `str(value)`. -/
def pyStr : PyValue → String
  | .none => "None"
  | .int i => toString i
  | .bool b => if b then "True" else "False"
  | .str s => s

/-- The canonical string a value contributes to the hash input:
source lines 133-138, `None` becomes `""`, everything else `str(value)`. -/
def canonVal : PyValue → String
  | .none => ""
  | v => pyStr v

/-- A census-record dictionary: association list from field name to value. -/
abbrev RecordMap := List (String × PyValue)

/-- The allow-list of hashable fields, in source order
(`compute_record_hash`, lines 117-125). -/
def hashable_fields : List String :=
  ["record_id", "household_id", "name", "age", "sex", "relation",
   "caste", "income", "region", "district", "state", "pin_code",
   "latitude", "longitude", "welfare_score", "ration_card_type",
   "scheme_enrollment_count", "employment_status", "occupation_category",
   "sector", "housing_type", "water_source", "toilet_access",
   "cooking_fuel", "internet_access", "household_size",
   "parent_id", "spouse_id"]

/-- Lexicographic comparison of character lists by code point — exactly
Python's string ordering on ASCII field names. -/
def charListLe : List Char → List Char → Bool
  | [], _ => true
  | _ :: _, [] => false
  | x :: xs, y :: ys =>
      if x.toNat < y.toNat then true
      else if y.toNat < x.toNat then false
      else charListLe xs ys

/-- String comparison by code points (Python `<=` on strings). -/
def strLe (a b : String) : Bool := charListLe a.data b.data

/-- Insert into a string list kept in nondecreasing order. -/
def insertStr (x : String) : List String → List String
  | [] => [x]
  | y :: t => if strLe x y then x :: y :: t else y :: insertStr x t

/-- Insertion sort on strings (Python `sorted` on ASCII field names). -/
def sortStrs : List String → List String
  | [] => []
  | x :: t => insertStr x (sortStrs t)

/-- `sorted(hashable_fields)` from line 129. -/
def sorted_hashable_fields : List String := sortStrs hashable_fields

/-- Hex digit characters, lowercase as Python `%x` formatting produces. -/
def hexDigit (n : Nat) : Char :=
  if n < 10 then Char.ofNat (48 + n) else Char.ofNat (87 + n)

/-- Four lowercase hex digits of a 16-bit value (Python `%04x`). -/
def hex4 (n : Nat) : List Char :=
  [hexDigit (n / 4096 % 16), hexDigit (n / 256 % 16),
   hexDigit (n / 16 % 16), hexDigit (n % 16)]

/-- Escape of one character under `json.dumps` with its default
`ensure_ascii=True`: quote, backslash and the five short control escapes,
`\uXXXX` for other characters outside `0x20`-`0x7e` (UTF-16 surrogate
pairs above `0xffff`), everything else verbatim. -/
def escChar (c : Char) : List Char :=
  if c = '\"' then ['\\', '\"']
  else if c = '\\' then ['\\', '\\']
  else if c = '\n' then ['\\', 'n']
  else if c = '\r' then ['\\', 'r']
  else if c = '\t' then ['\\', 't']
  else if c.toNat = 8 then ['\\', 'b']
  else if c.toNat = 12 then ['\\', 'f']
  else if c.toNat < 32 ∨ 126 < c.toNat then
    if c.toNat < 65536 then '\\' :: 'u' :: hex4 c.toNat
    else ('\\' :: 'u' :: hex4 (55296 + (c.toNat - 65536) / 1024)) ++
         ('\\' :: 'u' :: hex4 (56320 + (c.toNat - 65536) % 1024))
  else [c]

/-- Escape a whole character list. -/
def jsonEscape : List Char → List Char
  | [] => []
  | c :: t => escChar c ++ jsonEscape t

/-- A JSON string literal: quoted, contents escaped. -/
def encStr (s : String) : List Char :=
  '\"' :: jsonEscape s.data ++ ['\"']

/-- One `"key":"value"` member of a JSON object. -/
def encPair (p : String × String) : List Char :=
  encStr p.1 ++ ':' :: encStr p.2

/-- Comma-separated members (`separators=(',', ':')`, no whitespace). -/
def encItems : List (String × String) → List Char
  | [] => []
  | [p] => encPair p
  | p :: q :: t => encPair p ++ ',' :: encItems (q :: t)

/-- A compact JSON object, `json.dumps(canonical, sort_keys=True,
separators=(',', ':'))` applied to a string-to-string dict given as a
key-sorted association list. -/
def encodeObj (l : List (String × String)) : String :=
  String.mk ('\x7b' :: encItems l ++ ['\x7d'])

/-- The canonical association list built by lines 128-138: walk the sorted
allow-list, keep the fields present in the record, value in canonical
string form. -/
def canonList (r : RecordMap) : List (String × String) :=
  sorted_hashable_fields.filterMap fun f =>
    (r.lookup f).map fun v => (f, canonVal v)

/-- The canonical JSON text hashed by `compute_record_hash` (line 141). -/
def canonicalJson (r : RecordMap) : String :=
  encodeObj (canonList r)

/-! ### SHA-256 (`hashlib.sha256` over the UTF-8 bytes, hex digest) -/

/-- UTF-8 bytes of one character. -/
def utf8Char (c : Char) : List Nat :=
  let n := c.toNat
  if n < 128 then [n]
  else if n < 2048 then [192 + n / 64, 128 + n % 64]
  else if n < 65536 then [224 + n / 4096, 128 + n / 64 % 64, 128 + n % 64]
  else [240 + n / 262144, 128 + n / 4096 % 64, 128 + n / 64 % 64, 128 + n % 64]

/-- UTF-8 bytes of a character list. -/
def utf8List : List Char → List Nat
  | [] => []
  | c :: t => utf8Char c ++ utf8List t

/-- `s.encode('utf-8')` as a byte list. -/
def utf8Bytes (s : String) : List Nat := utf8List s.data

/-- Truncation to 32 bits. -/
def w32 (n : Nat) : Nat := n % 4294967296

/-- Right rotation of a 32-bit word. -/
def rotr32 (k x : Nat) : Nat := (x % 2 ^ k) * 2 ^ (32 - k) + x / 2 ^ k

def shaCh (x y z : Nat) : Nat := (x &&& y) ^^^ ((x ^^^ 4294967295) &&& z)

def shaMaj (x y z : Nat) : Nat := (x &&& y) ^^^ (x &&& z) ^^^ (y &&& z)

def bigSigma0 (x : Nat) : Nat := rotr32 2 x ^^^ rotr32 13 x ^^^ rotr32 22 x

def bigSigma1 (x : Nat) : Nat := rotr32 6 x ^^^ rotr32 11 x ^^^ rotr32 25 x

def smallSigma0 (x : Nat) : Nat := rotr32 7 x ^^^ rotr32 18 x ^^^ (x >>> 3)

def smallSigma1 (x : Nat) : Nat := rotr32 17 x ^^^ rotr32 19 x ^^^ (x >>> 10)

/-- The 64 SHA-256 round constants. -/
def k256 : List Nat :=
  [1116352408, 1899447441, 3049323471, 3921009573, 961987163, 1508970993,
   2453635748, 2870763221, 3624381080, 310598401, 607225278, 1426881987,
   1925078388, 2162078206, 2614888103, 3248222580, 3835390401, 4022224774,
   264347078, 604807628, 770255983, 1249150122, 1555081692, 1996064986,
   2554220882, 2821834349, 2952996808, 3210313671, 3336571891, 3584528711,
   113926993, 338241895, 666307205, 773529912, 1294757372, 1396182291,
   1695183700, 1986661051, 2177026350, 2456956037, 2730485921, 2820302411,
   3259730800, 3345764771, 3516065817, 3600352804, 4094571909, 275423344,
   430227734, 506948616, 659060556, 883997877, 958139571, 1322822218,
   1537002063, 1747873779, 1955562222, 2024104815, 2227730452, 2361852424,
   2428436474, 2756734187, 3204031479, 3329325298]

/-- The eight initial SHA-256 state words. -/
def initH : List Nat :=
  [1779033703, 3144134277, 1013904242, 2773480762,
   1359893119, 2600822924, 528734635, 1541459225]

/-- `k` bytes of `n`, big-endian. -/
def beBytes : Nat → Nat → List Nat
  | 0, _ => []
  | k + 1, n => beBytes k (n / 256) ++ [n % 256]

/-- SHA-256 padding: append `0x80`, zeros to 56 mod 64, then the 64-bit
big-endian bit length. -/
def padMessage (msg : List Nat) : List Nat :=
  let L := msg.length
  let r := (L + 1) % 64
  let zeros := if r ≤ 56 then 56 - r else 120 - r
  msg ++ 128 :: List.replicate zeros 0 ++ beBytes 8 (8 * L)

/-- Split a byte list into 64-byte blocks (structural recursion on a fuel
bound so the kernel can evaluate it; the fuel always suffices since every
step consumes at least one byte). -/
def toBlocksGo : Nat → List Nat → List (List Nat)
  | 0, _ => []
  | fuel + 1, l => if l = [] then [] else l.take 64 :: toBlocksGo fuel (l.drop 64)

/-- Split a byte list into 64-byte blocks. -/
def toBlocks (l : List Nat) : List (List Nat) := toBlocksGo (l.length + 1) l

/-- Big-endian 32-bit words of a block. -/
def toWords : List Nat → List Nat
  | b0 :: b1 :: b2 :: b3 :: t =>
      (b0 * 16777216 + b1 * 65536 + b2 * 256 + b3) :: toWords t
  | _ => []

/-- Extend the 16-word schedule by `n` further words. -/
def extendSchedule (ws : List Nat) : Nat → List Nat
  | 0 => ws
  | n + 1 =>
    let i := ws.length
    let w := w32 (smallSigma1 (ws.getD (i - 2) 0) + ws.getD (i - 7) 0 +
                  smallSigma0 (ws.getD (i - 15) 0) + ws.getD (i - 16) 0)
    extendSchedule (ws ++ [w]) n

/-- Compress one 64-byte block into the running hash state. -/
def compressBlock (hs : List Nat) (block : List Nat) : List Nat :=
  let ws := extendSchedule (toWords block) 48
  let st := (k256.zip ws).foldl (fun st kw =>
    match st with
    | [a, b, c, d, e, f, g, h] =>
      let t1 := w32 (h + bigSigma1 e + shaCh e f g + kw.1 + kw.2)
      let t2 := w32 (bigSigma0 a + shaMaj a b c)
      [w32 (t1 + t2), a, b, c, w32 (d + t1), e, f, g]
    | other => other) hs
  (hs.zip st).map fun p => w32 (p.1 + p.2)

/-- SHA-256 lowercase hex digest of the UTF-8 encoding of a string. -/
def sha256hex (s : String) : String :=
  let hs := (toBlocks (padMessage (utf8Bytes s))).foldl compressBlock initH
  String.mk ((hs.map fun h => hex4 (h / 65536) ++ hex4 (h % 65536)).flatten)

/-- `compute_record_hash` (lines 103-145): SHA-256 hex digest of the
canonical JSON of the allow-listed fields. -/
def compute_record_hash (record : RecordMap) : String :=
  sha256hex (canonicalJson record)

/-- `verify_record_hash` (lines 148-160). -/
def verify_record_hash (record : RecordMap) (expected_hash : String) : Bool :=
  compute_record_hash record == expected_hash

/-- Two distinct strings on which SHA-256 collides. -/
def Sha256Collision (a b : String) : Prop :=
  a ≠ b ∧ sha256hex a = sha256hex b

/-! ### Data model (`LedgerRecord`, `IntegrityResult`, `AccessLogEntry`) -/

/-- The `RecordStatus` enum values, in source order (lines 37-43). -/
def RecordStatusValues : List String :=
  ["PENDING_REVIEW", "APPROVED", "REJECTED", "NEEDS_VERIFICATION", "PRIORITY"]

/-- The `FlagStatus` enum values (lines 46-50). -/
def FlagStatusValues : List String := ["NORMAL", "REVIEW", "PRIORITY"]

/-- `[e.value for e in RecordStatus if e != RecordStatus.PENDING_REVIEW]`
(line 453). -/
def valid_decisions : List String :=
  ["APPROVED", "REJECTED", "NEEDS_VERIFICATION", "PRIORITY"]

/-- Default of the `FABRIC_MSP_ID` environment variable (line 32). -/
def FABRIC_MSP_ID : String := "StateMSP"

/-- A census record on the ledger (dataclass, lines 53-66). -/
structure LedgerRecord where
  record_id : String
  data_hash : String
  owner_household_id : String
  current_status : String
  flag_status : String
  created_by : String
  created_at : String
  last_updated_by : String
  last_updated_at : String
  version : Nat := 1
  previous_hash : Option String := Option.none
deriving DecidableEq

/-- Result of an integrity verification check (dataclass, lines 69-83;
`__post_init__` stamps `timestamp` with the construction time). -/
structure IntegrityResult where
  record_id : String
  verified : Bool
  on_chain_hash : Option String := Option.none
  provided_hash : Option String := Option.none
  current_status : Option String := Option.none
  last_updated_at : Option String := Option.none
  error : Option String := Option.none
  timestamp : String := ""
deriving DecidableEq

/-- An access log entry (dataclass, lines 86-96). -/
structure AccessLogEntry where
  log_id : String
  record_id : String
  accessor_id : String
  accessor_msp : String
  action_type : String
  details : String
  timestamp : String
  tx_id : String
deriving DecidableEq

/-- One reading of the wall clock, in the two renderings the source uses:
`datetime.now(timezone.utc).isoformat()` and
`strftime('%Y%m%d%H%M%S')`. -/
structure Timestamp where
  iso : String
  compact : String
deriving DecidableEq

/-! ### The mock ledger (in-memory store, lines 167-346) -/

/-- The in-memory mock ledger state: the record dict (insertion-ordered,
as Python dicts are), the append-only audit log, and the transaction
counter. -/
structure MockLedger where
  records : List (String × LedgerRecord) := []
  access_logs : List AccessLogEntry := []
  tx_counter : Nat := 0
deriving DecidableEq

def MockLedger.empty : MockLedger := {}

/-- Hex digits of a natural number, lowercase, no leading zeros
(structural recursion on a fuel bound so the kernel can evaluate it; the
fuel always suffices since the argument shrinks by a factor of 16). -/
def hexDigitsGo : Nat → Nat → List Char
  | 0, _ => []
  | fuel + 1, n =>
      if n < 16 then [hexDigit n]
      else hexDigitsGo fuel (n / 16) ++ [hexDigit (n % 16)]

/-- Hex digits of a natural number, lowercase, no leading zeros. -/
def hexDigits (n : Nat) : List Char := hexDigitsGo (n + 1) n

/-- Python `'%08x' % n`: lowercase hex, zero-padded to at least 8 digits. -/
def hex8 (n : Nat) : String :=
  let ds := hexDigits n
  String.mk (List.replicate (8 - ds.length) '0' ++ ds)

/-- `_generate_tx_id` (lines 178-181): bump the counter and format it with
the current compact time. -/
def MockLedger.generate_tx_id (s : MockLedger) (t : Timestamp) :
    String × MockLedger :=
  let c := s.tx_counter + 1
  ("tx_" ++ hex8 c ++ "_" ++ t.compact, { s with tx_counter := c })

/-- Python dict assignment `d[k] = v`: replace in place if the key exists,
append otherwise. -/
def assocSet {α : Type} : List (String × α) → String → α → List (String × α)
  | [], k, v => [(k, v)]
  | (k', v') :: t, k, v =>
      if k' = k then (k, v) :: t else (k', v') :: assocSet t k v

/-- `MockLedger.initialize_record` (lines 183-225). -/
def MockLedger.initialize_record (s : MockLedger)
    (record_id data_hash household_id flag_status user_id : String)
    (t : Timestamp) : Except String String × MockLedger :=
  if (s.records.lookup record_id).isSome then
    (Except.error ("Record " ++ record_id ++ " already exists on ledger"), s)
  else
    let now := t.iso
    let r : LedgerRecord :=
      { record_id := record_id, data_hash := data_hash,
        owner_household_id := household_id,
        current_status := "PENDING_REVIEW",
        flag_status := flag_status,
        created_by := user_id, created_at := now,
        last_updated_by := user_id, last_updated_at := now,
        version := 1, previous_hash := Option.none }
    let s1 := { s with records := assocSet s.records record_id r }
    let (tx_id, s2) := s1.generate_tx_id t
    let entry : AccessLogEntry :=
      { log_id := "LOG_" ++ record_id ++ "_" ++ toString s2.access_logs.length,
        record_id := record_id, accessor_id := user_id,
        accessor_msp := FABRIC_MSP_ID, action_type := "INITIALIZE",
        details := "Record initialized on ledger",
        timestamp := now, tx_id := tx_id }
    (Except.ok tx_id, { s2 with access_logs := s2.access_logs ++ [entry] })

/-- The record mutation performed by `MockLedger.review_record`
(lines 241-249): set the decision, refresh the update metadata, bump the
version, and — only when `new_hash` is Python-truthy, i.e. neither `None`
nor the empty string — shift the current hash into `previous_hash` and
overwrite `data_hash`. -/
def reviewUpdate (r : LedgerRecord) (reviewer_id decision : String)
    (new_hash : Option String) (t : Timestamp) : LedgerRecord :=
  if new_hash.getD "" ≠ "" then
    { r with current_status := decision,
             last_updated_by := reviewer_id,
             last_updated_at := t.iso,
             version := r.version + 1,
             previous_hash := Option.some r.data_hash,
             data_hash := new_hash.getD "" }
  else
    { r with current_status := decision,
             last_updated_by := reviewer_id,
             last_updated_at := t.iso,
             version := r.version + 1 }

/-- `MockLedger.review_record` (lines 227-266). Note the Python truthiness
of `if new_hash:` — both `None` and the empty string skip the hash-chain
update. -/
def MockLedger.review_record (s : MockLedger)
    (record_id reviewer_id decision : String) (new_hash : Option String)
    (t : Timestamp) : Except String String × MockLedger :=
  match s.records.lookup record_id with
  | Option.none =>
      (Except.error ("Record " ++ record_id ++ " not found on ledger"), s)
  | Option.some r =>
    let now := t.iso
    let r2 := reviewUpdate r reviewer_id decision new_hash t
    let s1 := { s with records := assocSet s.records record_id r2 }
    let (tx_id, s2) := s1.generate_tx_id t
    let entry : AccessLogEntry :=
      { log_id := "LOG_" ++ record_id ++ "_" ++ toString s2.access_logs.length,
        record_id := record_id, accessor_id := reviewer_id,
        accessor_msp := FABRIC_MSP_ID, action_type := "REVIEW",
        details := "Decision: " ++ decision,
        timestamp := now, tx_id := tx_id }
    (Except.ok tx_id, { s2 with access_logs := s2.access_logs ++ [entry] })

/-- `MockLedger.verify_integrity` (lines 268-306). On a missing record it
returns early — before the audit-log append — so the state comes back
unchanged. -/
def MockLedger.verify_integrity (s : MockLedger)
    (record_id provided_hash accessor_id : String) (t : Timestamp) :
    IntegrityResult × MockLedger :=
  match s.records.lookup record_id with
  | Option.none =>
      ({ record_id := record_id, verified := false,
         error := Option.some "Record not found on ledger",
         timestamp := t.iso }, s)
  | Option.some r =>
    let is_valid := r.data_hash == provided_hash
    let now := t.iso
    let (tx_id, s1) := s.generate_tx_id t
    let entry : AccessLogEntry :=
      { log_id := "LOG_" ++ record_id ++ "_" ++ toString s1.access_logs.length,
        record_id := record_id, accessor_id := accessor_id,
        accessor_msp := FABRIC_MSP_ID, action_type := "VERIFY",
        details := "Integrity check: " ++ (if is_valid then "PASSED" else "FAILED"),
        timestamp := now, tx_id := tx_id }
    ({ record_id := record_id, verified := is_valid,
       on_chain_hash := Option.some r.data_hash,
       provided_hash := Option.some provided_hash,
       current_status := Option.some r.current_status,
       last_updated_at := Option.some r.last_updated_at,
       timestamp := now }, { s1 with access_logs := s1.access_logs ++ [entry] })

/-- `MockLedger.log_access` (lines 308-330): unconditional append. -/
def MockLedger.log_access (s : MockLedger)
    (record_id accessor_id reason : String) (t : Timestamp) :
    String × MockLedger :=
  let now := t.iso
  let (tx_id, s1) := s.generate_tx_id t
  let entry : AccessLogEntry :=
    { log_id := "LOG_" ++ record_id ++ "_" ++ toString s1.access_logs.length,
      record_id := record_id, accessor_id := accessor_id,
      accessor_msp := FABRIC_MSP_ID, action_type := "ACCESS",
      details := reason, timestamp := now, tx_id := tx_id }
  (tx_id, { s1 with access_logs := s1.access_logs ++ [entry] })

/-- `MockLedger.get_record` (lines 332-334). -/
def MockLedger.get_record (s : MockLedger) (record_id : String) :
    Option LedgerRecord :=
  s.records.lookup record_id

/-- `MockLedger.get_access_logs` (lines 336-338). -/
def MockLedger.get_access_logs (s : MockLedger) (record_id : String) :
    List AccessLogEntry :=
  s.access_logs.filter fun l => l.record_id == record_id

/-- `MockLedger.query_by_status` (lines 340-342). -/
def MockLedger.query_by_status (s : MockLedger) (status : String) :
    List LedgerRecord :=
  (s.records.map Prod.snd).filter fun r => r.current_status == status

/-- `MockLedger.query_by_flag_status` (lines 344-346). -/
def MockLedger.query_by_flag_status (s : MockLedger) (flag_status : String) :
    List LedgerRecord :=
  (s.records.map Prod.snd).filter fun r => r.flag_status == flag_status

/-! ### The service facade (`BlockchainService`, lines 353-566; in mock
mode its state is exactly the mock ledger) -/

/-- The dict returned by `BlockchainService.anchor_record`. -/
structure AnchorResult where
  tx_id : String
  record_id : String
  data_hash : String
  status : String
  ledger_anchored : Bool
deriving DecidableEq

/-- The dict returned by `BlockchainService.review_record`. -/
structure ReviewResult where
  tx_id : String
  record_id : String
  new_status : String
  new_hash : Option String
deriving DecidableEq

/-- Python `str.upper()` restricted to ASCII letters (all strings the
facade upper-cases are ASCII status names). -/
def pyUpper (s : String) : String := String.mk (s.data.map Char.toUpper)

/-- `record.get(k, default)` rendered as a string. -/
def getStrD (r : RecordMap) (k d : String) : String :=
  match r.lookup k with
  | Option.some v => pyStr v
  | Option.none => d

/-- `BlockchainService.anchor_record` (lines 383-428): extract ids,
normalize `flag_status` (permissive `NORMAL` fallback), hash, store. -/
def anchor_record (s : MockLedger) (record : RecordMap) (user_id : String)
    (t : Timestamp) : Except String AnchorResult × MockLedger :=
  let record_id := getStrD record "record_id" ""
  let household_id := getStrD record "household_id" ""
  let flag0 := pyUpper (getStrD record "flag_status" "NORMAL")
  let flag_status := if flag0 ∈ FlagStatusValues then flag0 else "NORMAL"
  let data_hash := compute_record_hash record
  match MockLedger.initialize_record s record_id data_hash household_id
      flag_status user_id t with
  | (Except.ok tx_id, s1) =>
      (Except.ok { tx_id := tx_id, record_id := record_id,
                   data_hash := data_hash, status := "PENDING_REVIEW",
                   ledger_anchored := true }, s1)
  | (Except.error e, s1) => (Except.error e, s1)

/-- `BlockchainService.review_record` (lines 430-474): upper-case and
validate the decision before touching the ledger; `if updated_record:`
is Python-falsy for both `None` and the empty dict. -/
def review_record (s : MockLedger) (record_id reviewer_id decision : String)
    (updated_record : Option RecordMap) (t : Timestamp) :
    Except String ReviewResult × MockLedger :=
  let d := pyUpper decision
  if d ∈ valid_decisions then
    let new_hash : Option String :=
      match updated_record with
      | Option.some ur =>
          if ur ≠ [] then Option.some (compute_record_hash ur) else Option.none
      | Option.none => Option.none
    match MockLedger.review_record s record_id reviewer_id d new_hash t with
    | (Except.ok tx_id, s1) =>
        (Except.ok { tx_id := tx_id, record_id := record_id,
                     new_status := d, new_hash := new_hash }, s1)
    | (Except.error e, s1) => (Except.error e, s1)
  else
    (Except.error ("Invalid decision: " ++ d), s)

/-- `BlockchainService.verify_integrity` (lines 476-507): always re-derive
the hash of the supplied record, then delegate to the store. -/
def verify_integrity (s : MockLedger) (record_id : String)
    (record : RecordMap) (accessor_id : String) (t : Timestamp) :
    IntegrityResult × MockLedger :=
  MockLedger.verify_integrity s record_id (compute_record_hash record)
    accessor_id t

/-! ### Auxiliary definitions used by the verification -/

/-- Numeric value of a lowercase hex digit character. -/
def hexVal (c : Char) : Nat :=
  if c.toNat ≤ 57 then c.toNat - 48 else c.toNat - 87

/-- Decoder for one JSON-escaped character: inverse of `escChar` on
streams produced by it (used to prove `escChar` prefix-injective). -/
def descape (l : List Char) : Option (Char × List Char) :=
  match l with
  | [] => Option.none
  | c :: t =>
    if c = '\\' then
      match t with
      | [] => Option.some (c, t)
      | e :: t2 =>
        if e = '\"' then Option.some ('\"', t2)
        else if e = '\\' then Option.some ('\\', t2)
        else if e = 'n' then Option.some ('\n', t2)
        else if e = 'r' then Option.some ('\r', t2)
        else if e = 't' then Option.some ('\t', t2)
        else if e = 'b' then Option.some (Char.ofNat 8, t2)
        else if e = 'f' then Option.some (Char.ofNat 12, t2)
        else if e = 'u' then
          match t2 with
          | d1 :: d2 :: d3 :: d4 :: t3 =>
            let n := hexVal d1 * 4096 + hexVal d2 * 256 + hexVal d3 * 16 +
              hexVal d4
            if 55296 ≤ n ∧ n < 56320 then
              match t3 with
              | c2 :: e2 :: g1 :: g2 :: g3 :: g4 :: t4 =>
                if c2 = '\\' ∧ e2 = 'u' then
                  Option.some (Char.ofNat (65536 + (n - 55296) * 1024 +
                    ((hexVal g1 * 4096 + hexVal g2 * 256 + hexVal g3 * 16 +
                      hexVal g4) - 56320)), t4)
                else Option.none
              | _ => Option.none
            else Option.some (Char.ofNat n, t3)
          | _ => Option.none
        else Option.some (c, t)
    else Option.some (c, t)

/-- One store-level review call: reviewer, decision, optional new hash,
operation time. -/
abbrev ReviewCall := String × String × Option String × Timestamp

/-- Apply a sequence of review calls for one record id, threading the
ledger state. -/
def applyReviews (s : MockLedger) (record_id : String) :
    List ReviewCall → MockLedger
  | [] => s
  | (rid, d, nh, t) :: rest =>
      applyReviews (MockLedger.review_record s record_id rid d nh t).2
        record_id rest

/-- Whether every review call in the sequence is accepted. -/
def reviewsOk (s : MockLedger) (record_id : String) :
    List ReviewCall → Bool
  | [] => true
  | (rid, d, nh, t) :: rest =>
      let out := MockLedger.review_record s record_id rid d nh t
      (match out.1 with
       | Except.ok _ => true
       | Except.error _ => false) && reviewsOk out.2 record_id rest

/-! ### Concrete fixtures for witnesses and counterexamples -/

def ts0 : Timestamp := ⟨"2024-01-01T00:00:00+00:00", "20240101000000"⟩

def ts1 : Timestamp := ⟨"2024-01-02T00:00:00+00:00", "20240102000000"⟩

def ts2 : Timestamp := ⟨"2024-01-03T00:00:00+00:00", "20240103000000"⟩

/-- A ledger holding one record `r1` (hash `"h1"`), freshly initialized. -/
def sampleLedger1 : MockLedger :=
  (MockLedger.initialize_record MockLedger.empty "r1" "h1" "hh1" "NORMAL"
    "u1" ts0).2

/-- A record whose `name` field is `None`. -/
def recNone : RecordMap := [("record_id", PyValue.str "r1"), ("name", PyValue.none)]

/-- A record whose `name` field is the empty string — a different value
with the same canonical form as `None`. -/
def recEmptyStr : RecordMap :=
  [("record_id", PyValue.str "r1"), ("name", PyValue.str "")]

/-- The ledger after the facade anchors `recNone` on an empty store. -/
def ledgerAnchoredNone : MockLedger :=
  (anchor_record MockLedger.empty recNone "u1" ts0).2

/-- The ledger record stored by that anchor. -/
def anchoredRecNone : LedgerRecord :=
  { record_id := "r1", data_hash := compute_record_hash recNone,
    owner_household_id := "", current_status := "PENDING_REVIEW",
    flag_status := "NORMAL", created_by := "u1", created_at := ts0.iso,
    last_updated_by := "u1", last_updated_at := ts0.iso,
    version := 1, previous_hash := Option.none }

/-- The record stored in `sampleLedger1`. -/
def sampleRec1 : LedgerRecord :=
  { record_id := "r1", data_hash := "h1", owner_household_id := "hh1",
    current_status := "PENDING_REVIEW", flag_status := "NORMAL",
    created_by := "u1", created_at := ts0.iso,
    last_updated_by := "u1", last_updated_at := ts0.iso,
    version := 1, previous_hash := Option.none }

/-!
## Theorems

First a layer of characterization lemmas for the store operations, then
one theorem (plus witness or counterexample) per claim.
-/

/-- Python dict assignment then lookup of the same key finds the new value. -/
theorem lookup_assocSet_self {α : Type} (l : List (String × α)) (k : String)
    (v : α) : (assocSet l k v).lookup k = Option.some v := by
  induction l with
  | nil => simp [assocSet, List.lookup]
  | cons p t ih =>
      obtain ⟨k', v'⟩ := p
      by_cases h : k' = k
      · subst h; simp [assocSet, List.lookup]
      · have hb : (k == k') = false := beq_eq_false_iff_ne.mpr (Ne.symm h)
        simp [assocSet, h, List.lookup, ih, hb]

/-- `reviewUpdate` always bumps the version by exactly one. -/
theorem reviewUpdate_version (r : LedgerRecord) (rid d : String)
    (nh : Option String) (t : Timestamp) :
    (reviewUpdate r rid d nh t).version = r.version + 1 := by
  unfold reviewUpdate; split <;> rfl

/-- `reviewUpdate` sets the decision as the new status. -/
theorem reviewUpdate_status (r : LedgerRecord) (rid d : String)
    (nh : Option String) (t : Timestamp) :
    (reviewUpdate r rid d nh t).current_status = d := by
  unfold reviewUpdate; split <;> rfl

/-- `reviewUpdate` refreshes the update metadata. -/
theorem reviewUpdate_updated_by (r : LedgerRecord) (rid d : String)
    (nh : Option String) (t : Timestamp) :
    (reviewUpdate r rid d nh t).last_updated_by = rid ∧
    (reviewUpdate r rid d nh t).last_updated_at = t.iso := by
  unfold reviewUpdate; split <;> exact ⟨rfl, rfl⟩

/-- With a truthy (non-`None`, non-empty) `new_hash`, `reviewUpdate` chains
the hashes. -/
theorem reviewUpdate_hash_truthy (r : LedgerRecord) (rid d : String)
    (hh : String) (t : Timestamp) (hne : hh ≠ "") :
    (reviewUpdate r rid d (Option.some hh) t).previous_hash =
      Option.some r.data_hash ∧
    (reviewUpdate r rid d (Option.some hh) t).data_hash = hh := by
  unfold reviewUpdate
  rw [if_pos]
  · exact ⟨rfl, rfl⟩
  · simpa using hne

/-- With a falsy `new_hash` (`None` or `""`), `reviewUpdate` leaves both
hash fields untouched. -/
theorem reviewUpdate_hash_falsy (r : LedgerRecord) (rid d : String)
    (nh : Option String) (t : Timestamp) (hf : nh.getD "" = "") :
    (reviewUpdate r rid d nh t).previous_hash = r.previous_hash ∧
    (reviewUpdate r rid d nh t).data_hash = r.data_hash := by
  unfold reviewUpdate
  rw [if_neg]
  · exact ⟨rfl, rfl⟩
  · simpa using hf

/-- Unfolding of `initialize_record` on a fresh record id. -/
theorem initialize_record_absent (s : MockLedger)
    (record_id data_hash household_id flag_status user_id : String)
    (t : Timestamp) (h : s.records.lookup record_id = Option.none) :
    MockLedger.initialize_record s record_id data_hash household_id
      flag_status user_id t =
      (Except.ok ("tx_" ++ hex8 (s.tx_counter + 1) ++ "_" ++ t.compact),
       { records := assocSet s.records record_id
           { record_id := record_id, data_hash := data_hash,
             owner_household_id := household_id,
             current_status := "PENDING_REVIEW",
             flag_status := flag_status, created_by := user_id,
             created_at := t.iso, last_updated_by := user_id,
             last_updated_at := t.iso, version := 1,
             previous_hash := Option.none },
         access_logs := s.access_logs ++
           [{ log_id := "LOG_" ++ record_id ++ "_" ++
                toString s.access_logs.length,
              record_id := record_id, accessor_id := user_id,
              accessor_msp := FABRIC_MSP_ID, action_type := "INITIALIZE",
              details := "Record initialized on ledger", timestamp := t.iso,
              tx_id := "tx_" ++ hex8 (s.tx_counter + 1) ++ "_" ++ t.compact }],
         tx_counter := s.tx_counter + 1 }) := by
  simp [MockLedger.initialize_record, h, MockLedger.generate_tx_id]

/-- Unfolding of `review_record` on a present record id. -/
theorem review_record_present (s : MockLedger)
    (record_id reviewer_id decision : String) (nh : Option String)
    (t : Timestamp) (r : LedgerRecord)
    (h : s.records.lookup record_id = Option.some r) :
    MockLedger.review_record s record_id reviewer_id decision nh t =
      (Except.ok ("tx_" ++ hex8 (s.tx_counter + 1) ++ "_" ++ t.compact),
       { records := assocSet s.records record_id
           (reviewUpdate r reviewer_id decision nh t),
         access_logs := s.access_logs ++
           [{ log_id := "LOG_" ++ record_id ++ "_" ++
                toString s.access_logs.length,
              record_id := record_id, accessor_id := reviewer_id,
              accessor_msp := FABRIC_MSP_ID, action_type := "REVIEW",
              details := "Decision: " ++ decision, timestamp := t.iso,
              tx_id := "tx_" ++ hex8 (s.tx_counter + 1) ++ "_" ++ t.compact }],
         tx_counter := s.tx_counter + 1 }) := by
  simp [MockLedger.review_record, h, MockLedger.generate_tx_id]

/-- Unfolding of the store's `verify_integrity` on a present record id. -/
theorem verify_integrity_present (s : MockLedger)
    (record_id provided_hash accessor_id : String) (t : Timestamp)
    (r : LedgerRecord) (h : s.records.lookup record_id = Option.some r) :
    MockLedger.verify_integrity s record_id provided_hash accessor_id t =
      ({ record_id := record_id, verified := r.data_hash == provided_hash,
         on_chain_hash := Option.some r.data_hash,
         provided_hash := Option.some provided_hash,
         current_status := Option.some r.current_status,
         last_updated_at := Option.some r.last_updated_at,
         error := Option.none, timestamp := t.iso },
       { records := s.records,
         access_logs := s.access_logs ++
           [{ log_id := "LOG_" ++ record_id ++ "_" ++
                toString s.access_logs.length,
              record_id := record_id, accessor_id := accessor_id,
              accessor_msp := FABRIC_MSP_ID, action_type := "VERIFY",
              details := "Integrity check: " ++
                (if r.data_hash == provided_hash then "PASSED" else "FAILED"),
              timestamp := t.iso,
              tx_id := "tx_" ++ hex8 (s.tx_counter + 1) ++ "_" ++ t.compact }],
         tx_counter := s.tx_counter + 1 }) := by
  simp [MockLedger.verify_integrity, h, MockLedger.generate_tx_id]

/-- Claim C8: anchoring (create) an already-present `record_id` fails with
the already-exists error and has no effect at all: the returned state —
records, audit log, transaction counter — is exactly the input state. -/
theorem C8_duplicate_anchor_rejected (s : MockLedger)
    (record_id data_hash household_id flag_status user_id : String)
    (t : Timestamp) (h : (s.records.lookup record_id).isSome) :
    MockLedger.initialize_record s record_id data_hash household_id
      flag_status user_id t =
      (Except.error ("Record " ++ record_id ++ " already exists on ledger"),
       s) := by
  simp [MockLedger.initialize_record, h]

/-- Claim C8 witness: duplicate anchor of `r1` on the sample ledger. -/
theorem C8_duplicate_anchor_rejected_witness :
    MockLedger.initialize_record sampleLedger1 "r1" "h9" "hh9" "NORMAL" "u9"
      ts1 =
      (Except.error ("Record " ++ "r1" ++ " already exists on ledger"),
       sampleLedger1) :=
  C8_duplicate_anchor_rejected sampleLedger1 "r1" "h9" "hh9" "NORMAL" "u9"
    ts1 (by decide)

/-- Claim C9: a facade review whose decision upper-cases to
`PENDING_REVIEW` or to any string outside the valid decision set fails with
the invalid-decision error, appends no audit entry and changes no ledger
state (the input state is returned untouched). -/
theorem C9_invalid_decision_rejected (s : MockLedger)
    (record_id reviewer_id decision : String)
    (updated_record : Option RecordMap) (t : Timestamp)
    (h : pyUpper decision ∉ valid_decisions) :
    review_record s record_id reviewer_id decision updated_record t =
      (Except.error ("Invalid decision: " ++ pyUpper decision), s) := by
  simp [review_record, h]

/-- Claim C9 witness: the lowercase decision `pending_review` is rejected
on the sample ledger with no state change. -/
theorem C9_invalid_decision_rejected_witness :
    review_record sampleLedger1 "r1" "u2" "pending_review" Option.none ts1 =
      (Except.error ("Invalid decision: " ++ pyUpper "pending_review"),
       sampleLedger1) :=
  C9_invalid_decision_rejected sampleLedger1 "r1" "u2" "pending_review"
    Option.none ts1 (by decide)

/-- Claim C1 (amended): the store's integrity check on an absent record id
returns `verified = false` with a non-null explanatory error — but appends
NO audit entry: it returns before the audit-log append, so the whole
ledger state (audit log included) comes back unchanged. -/
theorem C1_verify_missing_no_audit (s : MockLedger)
    (record_id provided_hash accessor_id : String) (t : Timestamp)
    (h : s.records.lookup record_id = Option.none) :
    MockLedger.verify_integrity s record_id provided_hash accessor_id t =
      ({ record_id := record_id, verified := false,
         error := Option.some "Record not found on ledger",
         timestamp := t.iso }, s) := by
  simp [MockLedger.verify_integrity, h]

/-- Claim C1 witness: integrity check for `REC1` on the empty ledger. -/
theorem C1_verify_missing_no_audit_witness :
    MockLedger.verify_integrity MockLedger.empty "REC1" "h" "alice" ts0 =
      ({ record_id := "REC1", verified := false,
         error := Option.some "Record not found on ledger",
         timestamp := ts0.iso }, MockLedger.empty) :=
  C1_verify_missing_no_audit MockLedger.empty "REC1" "h" "alice" ts0
    (by decide)

/-- Claim C1 counterexample: on the empty ledger the failed lookup leaves
the audit log empty — it does NOT grow by one as the claim requires
(the result is still `verified = false` with a non-null error). -/
theorem C1_counterexample :
    (MockLedger.verify_integrity MockLedger.empty "REC1" "h" "alice"
        ts0).1.verified = false ∧
    (MockLedger.verify_integrity MockLedger.empty "REC1" "h" "alice"
        ts0).1.error = Option.some "Record not found on ledger" ∧
    (MockLedger.verify_integrity MockLedger.empty "REC1" "h" "alice"
        ts0).2.access_logs.length = MockLedger.empty.access_logs.length ∧
    ¬ ((MockLedger.verify_integrity MockLedger.empty "REC1" "h" "alice"
        ts0).2.access_logs.length =
          MockLedger.empty.access_logs.length + 1) := by
  decide

/-- Claim C2 (amended): an accepted store transition always bumps the
version by exactly one and refreshes `last_updated_by`/`last_updated_at`;
when the supplied `new_hash` is non-empty (Python truthiness: the empty
string, like `None`, is skipped by `if new_hash:`), the prior `data_hash`
is shifted into `previous_hash` and `data_hash` becomes the new hash. -/
theorem C2_review_transition (s : MockLedger)
    (record_id reviewer_id decision : String) (nh : Option String)
    (t : Timestamp) (r : LedgerRecord)
    (h : s.records.lookup record_id = Option.some r) :
    (∃ tx, (MockLedger.review_record s record_id reviewer_id decision nh
        t).1 = Except.ok tx) ∧
    ∃ r', (MockLedger.review_record s record_id reviewer_id decision nh
        t).2.records.lookup record_id = Option.some r' ∧
      r'.version = r.version + 1 ∧
      r'.last_updated_by = reviewer_id ∧
      r'.last_updated_at = t.iso ∧
      (∀ hh, nh = Option.some hh → hh ≠ "" →
        r'.previous_hash = Option.some r.data_hash ∧ r'.data_hash = hh) := by
  rw [review_record_present s record_id reviewer_id decision nh t r h]
  refine ⟨⟨_, rfl⟩, reviewUpdate r reviewer_id decision nh t, ?_,
    reviewUpdate_version r reviewer_id decision nh t,
    (reviewUpdate_updated_by r reviewer_id decision nh t).1,
    (reviewUpdate_updated_by r reviewer_id decision nh t).2, ?_⟩
  · exact lookup_assocSet_self s.records record_id _
  · intro hh hsome hne
    subst hsome
    exact reviewUpdate_hash_truthy r reviewer_id decision hh t hne

/-- Claim C2 witness: reviewing `r1` with new hash `h2` on the sample
ledger. -/
theorem C2_review_transition_witness :
    (∃ tx, (MockLedger.review_record sampleLedger1 "r1" "u2" "APPROVED"
        (Option.some "h2") ts1).1 = Except.ok tx) ∧
    ∃ r', (MockLedger.review_record sampleLedger1 "r1" "u2" "APPROVED"
        (Option.some "h2") ts1).2.records.lookup "r1" = Option.some r' ∧
      r'.version = sampleRec1.version + 1 ∧
      r'.last_updated_by = "u2" ∧
      r'.last_updated_at = ts1.iso ∧
      (∀ hh, Option.some "h2" = Option.some hh → hh ≠ "" →
        r'.previous_hash = Option.some sampleRec1.data_hash ∧
        r'.data_hash = hh) :=
  C2_review_transition sampleLedger1 "r1" "u2" "APPROVED" (Option.some "h2")
    ts1 sampleRec1 (by decide)

/-- Claim C2 counterexample: supplying `new_hash = ""` (a supplied hash,
but Python-falsy) leaves `previous_hash = None` and `data_hash = "h1"`,
not `previous_hash = Some "h1"` and `data_hash = ""` as the claim, read
over every supplied `new_hash`, requires. -/
theorem C2_counterexample :
    ((MockLedger.review_record sampleLedger1 "r1" "u2" "APPROVED"
        (Option.some "") ts1).2.records.lookup "r1").map
      (fun r => (r.previous_hash, r.data_hash, r.version)) =
      Option.some (Option.none, "h1", 2) ∧
    ¬ (((MockLedger.review_record sampleLedger1 "r1" "u2" "APPROVED"
        (Option.some "") ts1).2.records.lookup "r1").map
        (fun r => r.previous_hash) = Option.some (Option.some "h1")) := by
  decide

/-- Claim C6 (amended): the store's transition operation itself performs no
decision validation — on an existing record it accepts any decision string,
`PENDING_REVIEW` included, and sets `current_status` to it. The rejection
of `PENDING_REVIEW` lives one layer up: the facade's review always fails
with the invalid-decision error and leaves the state untouched, so through
the facade `PENDING_REVIEW` is reachable only via create. -/
theorem C6_store_permissive_facade_enforces (s : MockLedger)
    (record_id reviewer_id decision : String) (nh : Option String)
    (t : Timestamp) (r : LedgerRecord)
    (h : s.records.lookup record_id = Option.some r) :
    ((∃ tx, (MockLedger.review_record s record_id reviewer_id decision nh
        t).1 = Except.ok tx) ∧
     ((MockLedger.review_record s record_id reviewer_id decision nh
        t).2.records.lookup record_id).map (fun r' => r'.current_status) =
       Option.some decision) ∧
    (∀ (s' : MockLedger) (id' rid' : String) (ur : Option RecordMap)
       (t' : Timestamp),
       review_record s' id' rid' "PENDING_REVIEW" ur t' =
         (Except.error ("Invalid decision: " ++ "PENDING_REVIEW"), s')) := by
  constructor
  · rw [review_record_present s record_id reviewer_id decision nh t r h]
    refine ⟨⟨_, rfl⟩, ?_⟩
    simp [lookup_assocSet_self, reviewUpdate_status]
  · intro s' id' rid' ur t'
    have hup : pyUpper "PENDING_REVIEW" = "PENDING_REVIEW" := by decide
    have hnotin : ("PENDING_REVIEW" : String) ∉ valid_decisions := by decide
    simp [review_record, hup, hnotin]

/-- Claim C6 witness: the store itself accepts `PENDING_REVIEW` on the
sample ledger while the facade rejects it. -/
theorem C6_store_permissive_facade_enforces_witness :
    ((∃ tx, (MockLedger.review_record sampleLedger1 "r1" "u2"
        "PENDING_REVIEW" Option.none ts1).1 = Except.ok tx) ∧
     ((MockLedger.review_record sampleLedger1 "r1" "u2" "PENDING_REVIEW"
        Option.none ts1).2.records.lookup "r1").map
       (fun r' => r'.current_status) = Option.some "PENDING_REVIEW") ∧
    (∀ (s' : MockLedger) (id' rid' : String) (ur : Option RecordMap)
       (t' : Timestamp),
       review_record s' id' rid' "PENDING_REVIEW" ur t' =
         (Except.error ("Invalid decision: " ++ "PENDING_REVIEW"), s')) :=
  C6_store_permissive_facade_enforces sampleLedger1 "r1" "u2"
    "PENDING_REVIEW" Option.none ts1 sampleRec1 (by decide)

/-- Claim C6 counterexample: calling the store's transition directly with
`PENDING_REVIEW` does NOT fail — it succeeds and sets the record's
`current_status` back to `PENDING_REVIEW`, contradicting the claim that
the operation fails and never sets that value. -/
theorem C6_counterexample :
    (MockLedger.review_record sampleLedger1 "r1" "u2" "PENDING_REVIEW"
        Option.none ts1).1.toOption =
      Option.some "tx_00000002_20240102000000" ∧
    ((MockLedger.review_record sampleLedger1 "r1" "u2" "PENDING_REVIEW"
        Option.none ts1).2.records.lookup "r1").map
      (fun r => r.current_status) = Option.some "PENDING_REVIEW" := by
  decide

/-- Claim C10: a facade review carrying an empty `updated_record` mapping
behaves exactly as if no updated record had been supplied (`if
updated_record:` is falsy for the empty dict): the call is literally equal
to the `None` call, succeeds with `new_hash = None`, leaves `data_hash`
and `previous_hash` unchanged, and still bumps the version by one. -/
theorem C10_empty_updated_record (s : MockLedger)
    (record_id reviewer_id decision : String) (t : Timestamp)
    (r : LedgerRecord) (h : s.records.lookup record_id = Option.some r)
    (hd : pyUpper decision ∈ valid_decisions) :
    review_record s record_id reviewer_id decision
        (Option.some ([] : RecordMap)) t =
      review_record s record_id reviewer_id decision Option.none t ∧
    (∃ res, (review_record s record_id reviewer_id decision
        (Option.some ([] : RecordMap)) t).1 = Except.ok res ∧
      res.new_hash = Option.none) ∧
    ∃ r', (review_record s record_id reviewer_id decision
        (Option.some ([] : RecordMap)) t).2.records.lookup record_id =
        Option.some r' ∧
      r'.data_hash = r.data_hash ∧ r'.previous_hash = r.previous_hash ∧
      r'.version = r.version + 1 := by
  have heq : review_record s record_id reviewer_id decision
      (Option.some ([] : RecordMap)) t =
      review_record s record_id reviewer_id decision Option.none t := by
    simp [review_record]
  refine ⟨heq, ?_, ?_⟩
  · rw [heq]
    simp only [review_record, if_pos hd]
    rw [review_record_present s record_id reviewer_id (pyUpper decision)
      Option.none t r h]
    exact ⟨_, rfl, rfl⟩
  · rw [heq]
    simp only [review_record, if_pos hd]
    rw [review_record_present s record_id reviewer_id (pyUpper decision)
      Option.none t r h]
    refine ⟨reviewUpdate r reviewer_id (pyUpper decision) Option.none t,
      lookup_assocSet_self s.records record_id _,
      (reviewUpdate_hash_falsy r reviewer_id (pyUpper decision) Option.none
        t rfl).2,
      (reviewUpdate_hash_falsy r reviewer_id (pyUpper decision) Option.none
        t rfl).1,
      reviewUpdate_version r reviewer_id (pyUpper decision) Option.none t⟩

/-- Claim C10 witness: reviewing `r1` with decision `APPROVED` and an
empty updated record on the sample ledger. -/
theorem C10_empty_updated_record_witness :
    review_record sampleLedger1 "r1" "u2" "APPROVED"
        (Option.some ([] : RecordMap)) ts1 =
      review_record sampleLedger1 "r1" "u2" "APPROVED" Option.none ts1 ∧
    (∃ res, (review_record sampleLedger1 "r1" "u2" "APPROVED"
        (Option.some ([] : RecordMap)) ts1).1 = Except.ok res ∧
      res.new_hash = Option.none) ∧
    ∃ r', (review_record sampleLedger1 "r1" "u2" "APPROVED"
        (Option.some ([] : RecordMap)) ts1).2.records.lookup "r1" =
        Option.some r' ∧
      r'.data_hash = sampleRec1.data_hash ∧
      r'.previous_hash = sampleRec1.previous_hash ∧
      r'.version = sampleRec1.version + 1 :=
  C10_empty_updated_record sampleLedger1 "r1" "u2" "APPROVED" ts1
    sampleRec1 (by decide) (by decide)

/-- Audit entries for a record id after an append: the filter distributes. -/
theorem get_access_logs_append (recs : List (String × LedgerRecord))
    (logs : List AccessLogEntry) (c : Nat) (e : AccessLogEntry)
    (record_id : String) (he : e.record_id = record_id) :
    MockLedger.get_access_logs ⟨recs, logs ++ [e], c⟩ record_id =
      MockLedger.get_access_logs ⟨recs, logs, c⟩ record_id ++ [e] := by
  simp [MockLedger.get_access_logs, List.filter_append, he]

/-- Invariant carried by a run of store-level reviews on a present record:
every call is accepted, the version grows by the number of calls, and the
record's audit trail is extended by exactly one REVIEW entry per call. -/
theorem applyReviews_invariant (record_id : String) (ps : List ReviewCall) :
    ∀ (s : MockLedger) (r : LedgerRecord),
      s.records.lookup record_id = Option.some r →
      reviewsOk s record_id ps = true ∧
      (∃ r', (applyReviews s record_id ps).records.lookup record_id =
          Option.some r' ∧ r'.version = r.version + ps.length) ∧
      (MockLedger.get_access_logs (applyReviews s record_id ps)
          record_id).map (fun e => e.action_type) =
        (MockLedger.get_access_logs s record_id).map
            (fun e => e.action_type) ++
          List.replicate ps.length "REVIEW" := by
  induction ps with
  | nil =>
      intro s r h
      exact ⟨rfl, ⟨r, h, by simp⟩, by simp [applyReviews]⟩
  | cons p rest ih =>
      obtain ⟨rid, d, nh, t⟩ := p
      intro s r h
      have hrw := review_record_present s record_id rid d nh t r h
      have hstep : applyReviews s record_id ((rid, d, nh, t) :: rest) =
          applyReviews (MockLedger.review_record s record_id rid d nh t).2
            record_id rest := rfl
      have hlook : (MockLedger.review_record s record_id rid d nh
          t).2.records.lookup record_id =
          Option.some (reviewUpdate r rid d nh t) := by
        rw [hrw]
        exact lookup_assocSet_self s.records record_id _
      obtain ⟨ihok, ⟨r', ihlook, ihver⟩, ihlogs⟩ :=
        ih (MockLedger.review_record s record_id rid d nh t).2
          (reviewUpdate r rid d nh t) hlook
      refine ⟨?_, ⟨r', ?_, ?_⟩, ?_⟩
      · have h1 : (MockLedger.review_record s record_id rid d nh t).1 =
            Except.ok ("tx_" ++ hex8 (s.tx_counter + 1) ++ "_" ++
              t.compact) := by rw [hrw]
        simp only [reviewsOk]
        rw [h1]
        simp [ihok]
      · rw [hstep]
        exact ihlook
      · have hv2 := reviewUpdate_version r rid d nh t
        simp only [List.length_cons]
        omega
      · have hlogs' : MockLedger.get_access_logs
            (MockLedger.review_record s record_id rid d nh t).2 record_id =
            MockLedger.get_access_logs s record_id ++
              [{ log_id := "LOG_" ++ record_id ++ "_" ++
                   toString s.access_logs.length,
                 record_id := record_id, accessor_id := rid,
                 accessor_msp := FABRIC_MSP_ID, action_type := "REVIEW",
                 details := "Decision: " ++ d, timestamp := t.iso,
                 tx_id := "tx_" ++ hex8 (s.tx_counter + 1) ++ "_" ++
                   t.compact }] := by
          rw [hrw]
          exact get_access_logs_append _ _ _ _ record_id rfl
        rw [hstep, ihlogs, hlogs']
        simp [List.replicate_succ]

/-- Claim C3: a record created by one successful anchor followed by N
successful store-level reviews has version 1 + N, and its audit trail is
exactly one INITIALIZE entry followed by N REVIEW entries in call order
(given a starting state with no prior audit entries for that id). -/
theorem C3_anchor_then_reviews (s0 : MockLedger)
    (record_id data_hash household_id flag_status user_id : String)
    (t : Timestamp) (ps : List ReviewCall)
    (habs : s0.records.lookup record_id = Option.none)
    (hlogs : MockLedger.get_access_logs s0 record_id = []) :
    (∃ tx, (MockLedger.initialize_record s0 record_id data_hash
        household_id flag_status user_id t).1 = Except.ok tx) ∧
    reviewsOk (MockLedger.initialize_record s0 record_id data_hash
        household_id flag_status user_id t).2 record_id ps = true ∧
    (∃ r', (applyReviews (MockLedger.initialize_record s0 record_id
          data_hash household_id flag_status user_id t).2 record_id
          ps).records.lookup record_id = Option.some r' ∧
      r'.version = 1 + ps.length) ∧
    (MockLedger.get_access_logs (applyReviews (MockLedger.initialize_record
        s0 record_id data_hash household_id flag_status user_id t).2
        record_id ps) record_id).map (fun e => e.action_type) =
      "INITIALIZE" :: List.replicate ps.length "REVIEW" := by
  have hrw := initialize_record_absent s0 record_id data_hash household_id
    flag_status user_id t habs
  have hlook : (MockLedger.initialize_record s0 record_id data_hash
      household_id flag_status user_id t).2.records.lookup record_id =
      Option.some
        { record_id := record_id, data_hash := data_hash,
          owner_household_id := household_id,
          current_status := "PENDING_REVIEW", flag_status := flag_status,
          created_by := user_id, created_at := t.iso,
          last_updated_by := user_id, last_updated_at := t.iso,
          version := 1, previous_hash := Option.none } := by
    rw [hrw]
    exact lookup_assocSet_self s0.records record_id _
  obtain ⟨ok, ⟨r', hl, hv⟩, hm⟩ :=
    applyReviews_invariant record_id ps _ _ hlook
  refine ⟨⟨_, by rw [hrw]⟩, ok, ⟨r', hl, by simpa using hv⟩, ?_⟩
  have hinit : MockLedger.get_access_logs (MockLedger.initialize_record s0
      record_id data_hash household_id flag_status user_id t).2 record_id =
      [{ log_id := "LOG_" ++ record_id ++ "_" ++
           toString s0.access_logs.length,
         record_id := record_id, accessor_id := user_id,
         accessor_msp := FABRIC_MSP_ID, action_type := "INITIALIZE",
         details := "Record initialized on ledger", timestamp := t.iso,
         tx_id := "tx_" ++ hex8 (s0.tx_counter + 1) ++ "_" ++
           t.compact }] := by
    rw [hrw]
    rw [get_access_logs_append _ _ _ _ record_id rfl]
    have hbase : MockLedger.get_access_logs
        ⟨assocSet s0.records record_id
          { record_id := record_id, data_hash := data_hash,
            owner_household_id := household_id,
            current_status := "PENDING_REVIEW", flag_status := flag_status,
            created_by := user_id, created_at := t.iso,
            last_updated_by := user_id, last_updated_at := t.iso,
            version := 1, previous_hash := Option.none },
          s0.access_logs, s0.tx_counter + 1⟩ record_id =
        MockLedger.get_access_logs s0 record_id := rfl
    rw [hbase, hlogs]
    simp
  rw [hm, hinit]
  simp

/-- Claim C3 witness: anchor `r1` on the empty ledger, then two reviews. -/
theorem C3_anchor_then_reviews_witness :
    (∃ tx, (MockLedger.initialize_record MockLedger.empty "r1" "h1" "hh1"
        "NORMAL" "u1" ts0).1 = Except.ok tx) ∧
    reviewsOk (MockLedger.initialize_record MockLedger.empty "r1" "h1"
        "hh1" "NORMAL" "u1" ts0).2 "r1"
      [("u2", "APPROVED", Option.some "h2", ts1),
       ("u3", "REJECTED", Option.none, ts2)] = true ∧
    (∃ r', (applyReviews (MockLedger.initialize_record MockLedger.empty
          "r1" "h1" "hh1" "NORMAL" "u1" ts0).2 "r1"
          [("u2", "APPROVED", Option.some "h2", ts1),
           ("u3", "REJECTED", Option.none, ts2)]).records.lookup "r1" =
        Option.some r' ∧ r'.version = 1 + 2) ∧
    (MockLedger.get_access_logs (applyReviews (MockLedger.initialize_record
        MockLedger.empty "r1" "h1" "hh1" "NORMAL" "u1" ts0).2 "r1"
        [("u2", "APPROVED", Option.some "h2", ts1),
         ("u3", "REJECTED", Option.none, ts2)]) "r1").map
      (fun e => e.action_type) =
      "INITIALIZE" :: List.replicate 2 "REVIEW" :=
  C3_anchor_then_reviews MockLedger.empty "r1" "h1" "hh1" "NORMAL" "u1" ts0
    [("u2", "APPROVED", Option.some "h2", ts1),
     ("u3", "REJECTED", Option.none, ts2)] (by decide) (by decide)

/-! ### Injectivity of the canonical JSON encoding

`json.dumps` escaping makes the quoted-string encoding a prefix code:
`descape` decodes one escaped character, which yields that `escChar` is
prefix-injective, hence the whole object encoding is injective. -/

/-- `hexVal` inverts `hexDigit` on single hex digits. -/
theorem hexVal_hexDigit_fin : ∀ d : Fin 16, hexVal (hexDigit d.val) = d.val := by
  decide

/-- `hexVal` inverts `hexDigit` below 16. -/
theorem hexVal_hexDigit (d : Nat) (h : d < 16) : hexVal (hexDigit d) = d :=
  hexVal_hexDigit_fin ⟨d, h⟩

/-- A character's scalar value is never a UTF-16 surrogate and is below
`0x110000`. -/
theorem char_toNat_valid (c : Char) :
    (c.toNat < 55296 ∨ (57343 < c.toNat ∧ c.toNat < 1114112)) := by
  have h := c.valid
  rcases h with h | h
  · exact Or.inl h
  · exact Or.inr h

/-- `descape` applied to a `\uXXXX` stream whose value is not a high
surrogate. -/
theorem descape_u_plain (d1 d2 d3 d4 : Char) (t : List Char)
    (h : ¬ (55296 ≤ hexVal d1 * 4096 + hexVal d2 * 256 + hexVal d3 * 16 +
        hexVal d4 ∧
      hexVal d1 * 4096 + hexVal d2 * 256 + hexVal d3 * 16 + hexVal d4 <
        56320)) :
    descape ('\\' :: 'u' :: d1 :: d2 :: d3 :: d4 :: t) =
      Option.some (Char.ofNat (hexVal d1 * 4096 + hexVal d2 * 256 +
        hexVal d3 * 16 + hexVal d4), t) := by
  simp only [descape, Char.reduceEq, reduceIte]
  rw [if_neg h]

/-- `descape` applied to a high-surrogate `\uXXXX` followed by another
`\uXXXX` unit: recombines the scalar value. -/
theorem descape_u_pair (d1 d2 d3 d4 e1 e2 e3 e4 : Char) (t : List Char)
    (h : 55296 ≤ hexVal d1 * 4096 + hexVal d2 * 256 + hexVal d3 * 16 +
        hexVal d4 ∧
      hexVal d1 * 4096 + hexVal d2 * 256 + hexVal d3 * 16 + hexVal d4 <
        56320) :
    descape ('\\' :: 'u' :: d1 :: d2 :: d3 :: d4 ::
        '\\' :: 'u' :: e1 :: e2 :: e3 :: e4 :: t) =
      Option.some (Char.ofNat (65536 +
        ((hexVal d1 * 4096 + hexVal d2 * 256 + hexVal d3 * 16 +
          hexVal d4) - 55296) * 1024 +
        ((hexVal e1 * 4096 + hexVal e2 * 256 + hexVal e3 * 16 +
          hexVal e4) - 56320)), t) := by
  simp only [descape, Char.reduceEq, reduceIte]
  rw [if_pos h]
  simp only [Char.reduceEq, reduceIte, and_self]

/-- `descape` decodes exactly the escape of one character and returns the
rest of the stream: `escChar` is a prefix code. -/
theorem descape_escChar (c : Char) (rest : List Char) :
    descape (escChar c ++ rest) = Option.some (c, rest) := by
  unfold escChar
  split_ifs with h1 h2 h3 h4 h5 h6 h7 h8 h9
  · subst h1; rfl
  · subst h2; rfl
  · subst h3; rfl
  · subst h4; rfl
  · subst h5; rfl
  · show descape ('\\' :: 'b' :: rest) = Option.some (c, rest)
    have hc : Char.ofNat 8 = c := by rw [← h6, Char.ofNat_toNat]
    simp only [descape, Char.reduceEq, reduceIte]
    rw [hc]
  · show descape ('\\' :: 'f' :: rest) = Option.some (c, rest)
    have hc : Char.ofNat 12 = c := by rw [← h7, Char.ofNat_toNat]
    simp only [descape, Char.reduceEq, reduceIte]
    rw [hc]
  · show descape (('\\' :: 'u' :: hex4 c.toNat) ++ rest) =
      Option.some (c, rest)
    simp only [hex4, List.cons_append, List.nil_append]
    rw [descape_u_plain]
    · rw [hexVal_hexDigit _ (Nat.mod_lt _ (by omega)),
          hexVal_hexDigit _ (Nat.mod_lt _ (by omega)),
          hexVal_hexDigit _ (Nat.mod_lt _ (by omega)),
          hexVal_hexDigit _ (Nat.mod_lt _ (by omega))]
      have hval : c.toNat / 4096 % 16 * 4096 + c.toNat / 256 % 16 * 256 +
          c.toNat / 16 % 16 * 16 + c.toNat % 16 = c.toNat := by omega
      rw [hval, Char.ofNat_toNat]
    · rw [hexVal_hexDigit _ (Nat.mod_lt _ (by omega)),
          hexVal_hexDigit _ (Nat.mod_lt _ (by omega)),
          hexVal_hexDigit _ (Nat.mod_lt _ (by omega)),
          hexVal_hexDigit _ (Nat.mod_lt _ (by omega))]
      have hval : c.toNat / 4096 % 16 * 4096 + c.toNat / 256 % 16 * 256 +
          c.toNat / 16 % 16 * 16 + c.toNat % 16 = c.toNat := by omega
      rw [hval]
      rcases char_toNat_valid c with h | h <;> omega
  · show descape ((('\\' :: 'u' :: hex4 (55296 + (c.toNat - 65536) / 1024))
        ++ ('\\' :: 'u' :: hex4 (56320 + (c.toNat - 65536) % 1024))) ++
        rest) = Option.some (c, rest)
    have hub : c.toNat < 1114112 := by
      rcases char_toNat_valid c with h | h <;> omega
    have hge : 65536 ≤ c.toNat := by omega
    simp only [hex4, List.cons_append, List.nil_append, List.append_assoc]
    rw [descape_u_pair]
    · rw [hexVal_hexDigit _ (Nat.mod_lt _ (by omega)),
          hexVal_hexDigit _ (Nat.mod_lt _ (by omega)),
          hexVal_hexDigit _ (Nat.mod_lt _ (by omega)),
          hexVal_hexDigit _ (Nat.mod_lt _ (by omega)),
          hexVal_hexDigit _ (Nat.mod_lt _ (by omega)),
          hexVal_hexDigit _ (Nat.mod_lt _ (by omega)),
          hexVal_hexDigit _ (Nat.mod_lt _ (by omega)),
          hexVal_hexDigit _ (Nat.mod_lt _ (by omega))]
      have hv : 65536 +
          ((55296 + (c.toNat - 65536) / 1024) / 4096 % 16 * 4096 +
            (55296 + (c.toNat - 65536) / 1024) / 256 % 16 * 256 +
            (55296 + (c.toNat - 65536) / 1024) / 16 % 16 * 16 +
            (55296 + (c.toNat - 65536) / 1024) % 16 - 55296) * 1024 +
          ((56320 + (c.toNat - 65536) % 1024) / 4096 % 16 * 4096 +
            (56320 + (c.toNat - 65536) % 1024) / 256 % 16 * 256 +
            (56320 + (c.toNat - 65536) % 1024) / 16 % 16 * 16 +
            (56320 + (c.toNat - 65536) % 1024) % 16 - 56320) =
          c.toNat := by omega
      rw [hv, Char.ofNat_toNat]
    · rw [hexVal_hexDigit _ (Nat.mod_lt _ (by omega)),
          hexVal_hexDigit _ (Nat.mod_lt _ (by omega)),
          hexVal_hexDigit _ (Nat.mod_lt _ (by omega)),
          hexVal_hexDigit _ (Nat.mod_lt _ (by omega))]
      constructor <;> omega
  · show descape (c :: rest) = Option.some (c, rest)
    have hc : ¬ (c = '\\') := h2
    simp only [descape]
    rw [if_neg hc]

/-- Every character escape is nonempty and never starts with a quote:
inside an escaped string the closing quote is unambiguous. -/
theorem escChar_head_ne_quote (c : Char) :
    ∃ y t, escChar c = y :: t ∧ y ≠ '\"' := by
  unfold escChar
  split_ifs with h1 h2 h3 h4 h5 h6 h7 h8 h9
  · exact ⟨'\\', _, rfl, by decide⟩
  · exact ⟨'\\', _, rfl, by decide⟩
  · exact ⟨'\\', _, rfl, by decide⟩
  · exact ⟨'\\', _, rfl, by decide⟩
  · exact ⟨'\\', _, rfl, by decide⟩
  · exact ⟨'\\', _, rfl, by decide⟩
  · exact ⟨'\\', _, rfl, by decide⟩
  · exact ⟨'\\', _, rfl, by decide⟩
  · exact ⟨'\\', _, rfl, by decide⟩
  · exact ⟨c, [], rfl, h1⟩

/-- Quoted escaped strings form a prefix code: equal streams that each
consist of an escaped body, a closing quote and a remainder decompose
identically. -/
theorem jsonEscape_quote_inj : ∀ (s1 s2 r1 r2 : List Char),
    jsonEscape s1 ++ '\"' :: r1 = jsonEscape s2 ++ '\"' :: r2 →
    s1 = s2 ∧ r1 = r2 := by
  intro s1
  induction s1 with
  | nil =>
      intro s2 r1 r2 h
      cases s2 with
      | nil => simpa using h
      | cons c2 t2 =>
          obtain ⟨y, yt, hey, hy⟩ := escChar_head_ne_quote c2
          rw [show jsonEscape (c2 :: t2) = escChar c2 ++ jsonEscape t2 from
            rfl, hey] at h
          simp only [jsonEscape, List.nil_append, List.cons_append] at h
          injection h with h1 _
          exact absurd h1.symm hy
  | cons c1 t1 ih =>
      intro s2 r1 r2 h
      cases s2 with
      | nil =>
          obtain ⟨y, yt, hey, hy⟩ := escChar_head_ne_quote c1
          rw [show jsonEscape (c1 :: t1) = escChar c1 ++ jsonEscape t1 from
            rfl, hey] at h
          simp only [jsonEscape, List.nil_append, List.cons_append] at h
          injection h with h1 _
          exact absurd h1 hy
      | cons c2 t2 =>
          rw [show jsonEscape (c1 :: t1) = escChar c1 ++ jsonEscape t1 from
                rfl,
              show jsonEscape (c2 :: t2) = escChar c2 ++ jsonEscape t2 from
                rfl,
              List.append_assoc, List.append_assoc] at h
          have hd := congrArg descape h
          rw [descape_escChar, descape_escChar] at hd
          simp only [Option.some.injEq, Prod.mk.injEq] at hd
          obtain ⟨hc, hrest⟩ := hd
          subst hc
          obtain ⟨ht, hr⟩ := ih t2 r1 r2 hrest
          exact ⟨by rw [ht], hr⟩

/-- A nonempty member list encodes to a stream starting with a quote. -/
theorem encItems_cons_head (p : String × String)
    (t : List (String × String)) :
    ∃ tl, encItems (p :: t) = '\"' :: tl := by
  cases t with
  | nil => exact ⟨_, rfl⟩
  | cons q u => exact ⟨_, rfl⟩

/-- Right-nested normal form of one encoded member followed by the rest of
the object encoding. -/
theorem encItems_unfold (k v : String) (t : List (String × String))
    (r : List Char) :
    encItems ((k, v) :: t) ++ '\x7d' :: r =
      '\"' :: (jsonEscape k.data ++ '\"' ::
        (':' :: ('\"' :: (jsonEscape v.data ++ '\"' ::
          (match t with
           | [] => '\x7d' :: r
           | q :: u => ',' :: (encItems (q :: u) ++ '\x7d' :: r)))))) := by
  cases t with
  | nil => simp [encItems, encPair, encStr, List.append_assoc]
  | cons q u => simp [encItems, encPair, encStr, List.append_assoc]

/-- The member encoding is injective given a `\x7d`-terminated context. -/
theorem encItems_inj : ∀ (l1 l2 : List (String × String))
    (r1 r2 : List Char),
    encItems l1 ++ '\x7d' :: r1 = encItems l2 ++ '\x7d' :: r2 →
    l1 = l2 ∧ r1 = r2 := by
  intro l1
  induction l1 with
  | nil =>
      intro l2 r1 r2 h
      cases l2 with
      | nil => simpa using h
      | cons p2 t2 =>
          obtain ⟨tl, htl⟩ := encItems_cons_head p2 t2
          rw [htl] at h
          simp only [encItems, List.nil_append, List.cons_append] at h
          injection h with h1 _
          exact absurd h1 (by decide)
  | cons p1 t1 ih =>
      intro l2 r1 r2 h
      cases l2 with
      | nil =>
          obtain ⟨tl, htl⟩ := encItems_cons_head p1 t1
          rw [htl] at h
          simp only [encItems, List.nil_append, List.cons_append] at h
          injection h with h1 _
          exact absurd h1 (by decide)
      | cons p2 t2 =>
          obtain ⟨k1, v1⟩ := p1
          obtain ⟨k2, v2⟩ := p2
          rw [encItems_unfold, encItems_unfold] at h
          injection h with _ h
          obtain ⟨hk, h⟩ := jsonEscape_quote_inj _ _ _ _ h
          injection h with _ h
          injection h with _ h
          obtain ⟨hv, h⟩ := jsonEscape_quote_inj _ _ _ _ h
          have hk' : k1 = k2 := by
            cases k1; cases k2; exact congrArg String.mk hk
          have hv' : v1 = v2 := by
            cases v1; cases v2; exact congrArg String.mk hv
          cases t1 with
          | nil =>
              cases t2 with
              | nil =>
                  injection h with _ h
                  exact ⟨by rw [hk', hv'], h⟩
              | cons q2 u2 =>
                  exfalso
                  injection h with h1 _
                  exact absurd h1 (by decide)
          | cons q1 u1 =>
              cases t2 with
              | nil =>
                  exfalso
                  injection h with h1 _
                  exact absurd h1 (by decide)
              | cons q2 u2 =>
                  injection h with _ h
                  obtain ⟨ht, hr⟩ := ih (q2 :: u2) r1 r2 h
                  exact ⟨by rw [hk', hv', ht], hr⟩

/-- The full object encoding is injective. -/
theorem encodeObj_inj (l1 l2 : List (String × String))
    (h : encodeObj l1 = encodeObj l2) : l1 = l2 := by
  unfold encodeObj at h
  have h' : '\x7b' :: encItems l1 ++ ['\x7d'] =
      '\x7b' :: encItems l2 ++ ['\x7d'] := congrArg String.data h
  injection h' with hhead htail
  exact (encItems_inj l1 l2 [] [] htail).1

/-- A field absent from the walked list never appears in the canonical
association list built from it. -/
theorem lookup_filterMap_absent (r : RecordMap) (f : String) :
    ∀ (l : List String), f ∉ l →
      (l.filterMap fun x =>
        (r.lookup x).map fun v => (x, canonVal v)).lookup f =
        Option.none := by
  intro l
  induction l with
  | nil => intro _; rfl
  | cons x t ih =>
      intro hmem
      have hx : f ≠ x := fun he => hmem (he ▸ List.mem_cons_self x t)
      have ht : f ∉ t := fun hm => hmem (List.mem_cons_of_mem x hm)
      simp only [List.filterMap_cons]
      cases hre : r.lookup x with
      | none => exact ih ht
      | some v =>
          have hb : (f == x) = false := beq_eq_false_iff_ne.mpr hx
          simp [List.lookup, hb, ih ht]

/-- Looking up a walked field in the canonical association list returns
exactly its canonical value (if present in the record). -/
theorem lookup_filterMap_mem (r : RecordMap) (f : String) :
    ∀ (l : List String), l.Nodup → f ∈ l →
      (l.filterMap fun x =>
        (r.lookup x).map fun v => (x, canonVal v)).lookup f =
        (r.lookup f).map canonVal := by
  intro l
  induction l with
  | nil => intro _ hmem; cases hmem
  | cons x t ih =>
      intro hnd hmem
      obtain ⟨hxt, hndt⟩ := List.nodup_cons.mp hnd
      simp only [List.filterMap_cons]
      by_cases hfx : f = x
      · subst hfx
        cases hre : r.lookup f with
        | none => simp [lookup_filterMap_absent r f t hxt]
        | some v => simp [List.lookup, hre]
      · have hft : f ∈ t := (List.mem_cons.mp hmem).resolve_left hfx
        cases hre : r.lookup x with
        | none => exact ih hndt hft
        | some v =>
            have hb : (f == x) = false := beq_eq_false_iff_ne.mpr hfx
            simp [List.lookup, hb, ih hndt hft]

/-- `insertStr` preserves membership. -/
theorem mem_insertStr (a x : String) :
    ∀ l, a ∈ insertStr x l ↔ a = x ∨ a ∈ l := by
  intro l
  induction l with
  | nil => simp [insertStr]
  | cons y t ih =>
      unfold insertStr
      split
      · simp
      · simp [ih]
        tauto

/-- Sorting preserves membership. -/
theorem mem_sortStrs (a : String) : ∀ l, a ∈ sortStrs l ↔ a ∈ l := by
  intro l
  induction l with
  | nil => simp [sortStrs]
  | cons x t ih => simp [sortStrs, mem_insertStr, ih]

/-- Membership in the sorted allow-list coincides with membership in the
source-order allow-list. -/
theorem mem_sorted_hashable (f : String) :
    f ∈ sorted_hashable_fields ↔ f ∈ hashable_fields :=
  mem_sortStrs f hashable_fields

/-- The sorted allow-list has no duplicate field names. -/
theorem nodup_sorted_hashable : sorted_hashable_fields.Nodup := by decide

/-- Records agreeing on every allow-listed field (same presence, same
values) canonicalize identically. -/
theorem canonList_eq_of_agree (r1 r2 : RecordMap)
    (h : ∀ f ∈ hashable_fields, r1.lookup f = r2.lookup f) :
    canonList r1 = canonList r2 := by
  unfold canonList
  apply List.filterMap_congr
  intro f hf
  rw [h f ((mem_sorted_hashable f).mp hf)]

/-- Records whose canonical string form differs on some allow-listed field
present in both produce different canonical JSON texts. -/
theorem canonicalJson_ne_of_field_ne (r1 r2 : RecordMap) (f : String)
    (v1 v2 : PyValue) (hf : f ∈ hashable_fields)
    (h1 : r1.lookup f = Option.some v1) (h2 : r2.lookup f = Option.some v2)
    (hne : canonVal v1 ≠ canonVal v2) :
    canonicalJson r1 ≠ canonicalJson r2 := by
  intro he
  have hl : canonList r1 = canonList r2 := encodeObj_inj _ _ he
  have e1 : (canonList r1).lookup f = (r1.lookup f).map canonVal :=
    lookup_filterMap_mem r1 f sorted_hashable_fields nodup_sorted_hashable
      ((mem_sorted_hashable f).mpr hf)
  have e2 : (canonList r2).lookup f = (r2.lookup f).map canonVal :=
    lookup_filterMap_mem r2 f sorted_hashable_fields nodup_sorted_hashable
      ((mem_sorted_hashable f).mpr hf)
  rw [hl] at e1
  have e3 := e1.symm.trans e2
  rw [h1, h2] at e3
  simp only [Option.map_some', Option.some.injEq] at e3
  exact hne e3

/-- Claim C5 (amended): mappings agreeing on every allow-listed field hash
identically; mappings whose canonical string form differs at some
allow-listed field present in both have different canonical JSON texts,
so their digests differ unless SHA-256 collides on those two distinct
texts. (Differing raw values with equal canonical forms — e.g. `None`
versus `""`, or `5` versus `"5"` — hash identically, see the
counterexample.) -/
theorem C5_hash_allowlist_sensitivity (r1 r2 : RecordMap) :
    ((∀ f ∈ hashable_fields, r1.lookup f = r2.lookup f) →
      compute_record_hash r1 = compute_record_hash r2) ∧
    (∀ (f : String) (v1 v2 : PyValue), f ∈ hashable_fields →
      r1.lookup f = Option.some v1 → r2.lookup f = Option.some v2 →
      canonVal v1 ≠ canonVal v2 →
      canonicalJson r1 ≠ canonicalJson r2 ∧
      (compute_record_hash r1 = compute_record_hash r2 →
        Sha256Collision (canonicalJson r1) (canonicalJson r2))) := by
  constructor
  · intro h
    show sha256hex (canonicalJson r1) = sha256hex (canonicalJson r2)
    unfold canonicalJson
    rw [canonList_eq_of_agree r1 r2 h]
  · intro f v1 v2 hf h1 h2 hne
    have hj := canonicalJson_ne_of_field_ne r1 r2 f v1 v2 hf h1 h2 hne
    exact ⟨hj, fun hh => ⟨hj, hh⟩⟩

/-- Claim C5 witness: adding a non-allow-listed field does not change the
digest, while changing `name` from `"A"` to `"B"` changes the canonical
JSON. -/
theorem C5_hash_allowlist_sensitivity_witness :
    compute_record_hash [("name", PyValue.str "A")] =
      compute_record_hash
        [("name", PyValue.str "A"), ("storage_meta", PyValue.int 7)] ∧
    canonicalJson [("name", PyValue.str "A")] ≠
      canonicalJson [("name", PyValue.str "B")] :=
  ⟨(C5_hash_allowlist_sensitivity [("name", PyValue.str "A")]
      [("name", PyValue.str "A"), ("storage_meta", PyValue.int 7)]).1
    (by decide),
   ((C5_hash_allowlist_sensitivity [("name", PyValue.str "A")]
      [("name", PyValue.str "B")]).2 "name" (PyValue.str "A")
    (PyValue.str "B") (by decide) (by decide) (by decide) (by decide)).1⟩

/-- Claim C5 counterexample: `name = None` and `name = ""` are different
values of an allow-listed field, yet both canonicalize to the empty string,
so the two records produce the same canonical JSON and hence the same
digest — no SHA-256 collision involved. -/
theorem C5_counterexample :
    recNone.lookup "name" = Option.some PyValue.none ∧
    recEmptyStr.lookup "name" = Option.some (PyValue.str "") ∧
    PyValue.none ≠ PyValue.str "" ∧
    "name" ∈ hashable_fields ∧
    canonicalJson recNone = canonicalJson recEmptyStr ∧
    compute_record_hash recNone = compute_record_hash recEmptyStr := by
  refine ⟨by decide, by decide, by decide, by decide, by decide, ?_⟩
  show sha256hex (canonicalJson recNone) =
    sha256hex (canonicalJson recEmptyStr)
  exact congrArg sha256hex (by decide)

/-- Claim C4 (amended): verifying a record against the very content whose
hash is anchored always returns `verified = true` with
`on_chain_hash = provided_hash`; verifying against content whose canonical
string form differs at some allow-listed field present in both can return
`verified = true` only if SHA-256 collides on the two distinct canonical
JSON texts. (Different raw values with equal canonical form — e.g. `None`
versus `""` — verify as equal, see the counterexample.) -/
theorem C4_verify_content (s : MockLedger) (record_id : String)
    (R : RecordMap) (accessor_id : String) (t : Timestamp)
    (r : LedgerRecord) (hl : s.records.lookup record_id = Option.some r)
    (hh : r.data_hash = compute_record_hash R) :
    (verify_integrity s record_id R accessor_id t).1.verified = true ∧
    (verify_integrity s record_id R accessor_id t).1.on_chain_hash =
      (verify_integrity s record_id R accessor_id t).1.provided_hash ∧
    (∀ (R' : RecordMap) (f : String) (v v' : PyValue) (aid' : String)
        (t' : Timestamp), f ∈ hashable_fields →
      R.lookup f = Option.some v → R'.lookup f = Option.some v' →
      canonVal v ≠ canonVal v' →
      (verify_integrity s record_id R' aid' t').1.verified = true →
      Sha256Collision (canonicalJson R) (canonicalJson R')) := by
  have hver : ∀ (Rx : RecordMap) (aidx : String) (tx : Timestamp),
      (verify_integrity s record_id Rx aidx tx).1.verified =
        (r.data_hash == compute_record_hash Rx) := by
    intro Rx aidx tx
    show (MockLedger.verify_integrity s record_id
      (compute_record_hash Rx) aidx tx).1.verified = _
    rw [verify_integrity_present s record_id (compute_record_hash Rx)
      aidx tx r hl]
  refine ⟨?_, ?_, ?_⟩
  · rw [hver R accessor_id t, hh]
    exact beq_self_eq_true _
  · show (MockLedger.verify_integrity s record_id
        (compute_record_hash R) accessor_id t).1.on_chain_hash =
      (MockLedger.verify_integrity s record_id
        (compute_record_hash R) accessor_id t).1.provided_hash
    rw [verify_integrity_present s record_id (compute_record_hash R)
      accessor_id t r hl]
    simp [hh]
  · intro R' f v v' aid' t' hf h1 h2 hne hvt
    rw [hver R' aid' t'] at hvt
    have heq : r.data_hash = compute_record_hash R' := eq_of_beq hvt
    have hceq : compute_record_hash R = compute_record_hash R' := by
      rw [← hh, heq]
    exact ⟨canonicalJson_ne_of_field_ne R R' f v v' hf h1 h2 hne, hceq⟩

/-- Claim C4 witness: after anchoring `recNone`, verifying with the same
content succeeds and echoes the on-chain hash. -/
theorem C4_verify_content_witness :
    (verify_integrity ledgerAnchoredNone "r1" recNone "u9"
        ts2).1.verified = true ∧
    (verify_integrity ledgerAnchoredNone "r1" recNone "u9"
        ts2).1.on_chain_hash =
      (verify_integrity ledgerAnchoredNone "r1" recNone "u9"
        ts2).1.provided_hash ∧
    (∀ (R' : RecordMap) (f : String) (v v' : PyValue) (aid' : String)
        (t' : Timestamp), f ∈ hashable_fields →
      recNone.lookup f = Option.some v → R'.lookup f = Option.some v' →
      canonVal v ≠ canonVal v' →
      (verify_integrity ledgerAnchoredNone "r1" R' aid' t').1.verified =
        true →
      Sha256Collision (canonicalJson recNone) (canonicalJson R')) :=
  C4_verify_content ledgerAnchoredNone "r1" recNone "u9" ts2
    anchoredRecNone rfl rfl

/-- Claim C4 counterexample: `recEmptyStr` differs from the anchored
`recNone` in the allow-listed field `name` (`""` versus `None`), yet the
facade's verify returns `verified = true`, because both canonicalize to
the same JSON text — so the claim's `verified = false` does not hold, and
no SHA-256 collision is involved. -/
theorem C4_counterexample :
    recNone.lookup "name" ≠ recEmptyStr.lookup "name" ∧
    "name" ∈ hashable_fields ∧
    canonicalJson recNone = canonicalJson recEmptyStr ∧
    (verify_integrity ledgerAnchoredNone "r1" recEmptyStr "u2"
        ts1).1.verified = true := by
  refine ⟨by decide, by decide, by decide, ?_⟩
  have hl : ledgerAnchoredNone.records.lookup "r1" =
      Option.some anchoredRecNone := rfl
  have hceq : compute_record_hash recNone =
      compute_record_hash recEmptyStr := congrArg sha256hex (by decide)
  show (MockLedger.verify_integrity ledgerAnchoredNone "r1"
    (compute_record_hash recEmptyStr) "u2" ts1).1.verified = true
  rw [verify_integrity_present ledgerAnchoredNone "r1"
    (compute_record_hash recEmptyStr) "u2" ts1 anchoredRecNone hl]
  show (anchoredRecNone.data_hash == compute_record_hash recEmptyStr) = true
  rw [show anchoredRecNone.data_hash = compute_record_hash recNone from rfl,
    hceq]
  exact beq_self_eq_true _

end BlockchainService
